import Mathlib

/-!
Verification of the trajectory-interpolation core (`abb_libegm`'s
`EGMInterpolator` in `egm_interpolator.h`) and of the forward-kinematics
chain evaluator (`relaxedIK`'s `Arm` in `Arm.hpp`).

The interpolator's numeric types (C++ `double`) are embedded as real
numbers.  Definitions whose bodies appear in the header (polynomial
evaluation, `getDuration`, the default constructors, the Slerp threshold,
the ramp-factor formulas) are translated directly from that source; the
method bodies that live in `egm_interpolator.cpp` (absent from the
sources) are modelled from the specification and marked as such in their
doc comments.
-/

noncomputable section

namespace EGM

/-- The operations the interpolator can handle (`EGMInterpolator::Operation`). -/
inductive Operation
| Normal
| RampDown
| RampInPosition
| RampInVelocity
deriving DecidableEq

/-- The active EGM mode (`EGMModes` from `egm_common.h`, as used by the header). -/
inductive EGMModes
| EGMJoint
| EGMPose
deriving DecidableEq

/-- The spline method for normal operation
(`TrajectoryConfiguration::SplineMethod`); `Quintic` is the only method
named in the available source. -/
inductive SplineMethod
| Quintic
deriving DecidableEq

/-- Conditions for the interpolator (`EGMInterpolator::Conditions`). -/
structure Conditions where
  duration : ℝ
  mode : EGMModes
  operation : Operation
  ramp_down_factor : ℝ
  spline_method : SplineMethod

/-- The default constructor of `Conditions` (header lines 84-91):
duration 0.0, mode EGMJoint, operation Normal, ramp_down_factor 0.0,
spline_method Quintic. -/
def Conditions.default : Conditions :=
  { duration := 0
    mode := EGMModes.EGMJoint
    operation := Operation.Normal
    ramp_down_factor := 0
    spline_method := SplineMethod.Quintic }

/-- Position, velocity and acceleration of one scalar axis (one joint of a
`JointGoal`, or one Cartesian coordinate of a `CartesianGoal`). -/
@[ext]
structure AxisState where
  pos : ℝ
  vel : ℝ
  acc : ℝ

/-- Conditions for one spline polynomial (`EGMInterpolator::SplineConditions`). -/
structure SplineConditions where
  duration : ℝ
  alfa : ℝ
  d_alfa : ℝ
  dd_alfa : ℝ
  beta : ℝ
  d_beta : ℝ
  dd_beta : ℝ
  spline_method : SplineMethod
  do_ramp_down : Bool
  ramp_down_factor : ℝ

/-- The `SplineConditions` constructor (header lines 173-185): copies
duration, spline method and ramp-down factor from the general conditions,
zeroes the boundary values, and sets `do_ramp_down` when the operation is
`RampDown`. -/
def SplineConditions.fromConditions (c : Conditions) : SplineConditions :=
  { duration := c.duration
    alfa := 0
    d_alfa := 0
    dd_alfa := 0
    beta := 0
    d_beta := 0
    dd_beta := 0
    spline_method := c.spline_method
    do_ramp_down := decide (c.operation = Operation.RampDown)
    ramp_down_factor := c.ramp_down_factor }

/-- Modelled from the spec: `SplineConditions::setConditions` (body in the
absent `egm_interpolator.cpp`).  Extracts the six boundary scalars for one
axis: start position/velocity/acceleration and goal position; when
`do_ramp_down` is set the goal velocity used is the start velocity scaled
by `ramp_down_factor` and the goal acceleration is treated as zero,
otherwise the goal's own velocity and acceleration are used. -/
def SplineConditions.setConditions (sc : SplineConditions) (start goal : AxisState) :
    SplineConditions :=
  { sc with
    alfa := start.pos
    d_alfa := start.vel
    dd_alfa := start.acc
    beta := goal.pos
    d_beta := if sc.do_ramp_down then sc.ramp_down_factor * start.vel else goal.vel
    dd_beta := if sc.do_ramp_down then 0 else goal.acc }

/-- A spline interpolation polynomial of degree 5 or lower
(`EGMInterpolator::SplinePolynomial`): A + B*t + C*t^2 + D*t^3 + E*t^4 + F*t^5. -/
structure SplinePolynomial where
  a : ℝ
  b : ℝ
  c : ℝ
  d : ℝ
  e : ℝ
  f : ℝ

/-- `SplinePolynomial::calculatePosition` (header lines 308-311). -/
def SplinePolynomial.calculatePosition (p : SplinePolynomial) (t : ℝ) : ℝ :=
  p.a + p.b * t + p.c * t ^ 2 + p.d * t ^ 3 + p.e * t ^ 4 + p.f * t ^ 5

/-- `SplinePolynomial::calculateVelocity` (header lines 320-323). -/
def SplinePolynomial.calculateVelocity (p : SplinePolynomial) (t : ℝ) : ℝ :=
  p.b + 2 * p.c * t + 3 * p.d * t ^ 2 + 4 * p.e * t ^ 3 + 5 * p.f * t ^ 4

/-- `SplinePolynomial::calculateAcceleration` (header lines 332-335). -/
def SplinePolynomial.calculateAcceleration (p : SplinePolynomial) (t : ℝ) : ℝ :=
  2 * p.c + 6 * p.d * t + 12 * p.e * t ^ 2 + 20 * p.f * t ^ 3

/-- Modelled from the spec: `SplinePolynomial::update` (body in the absent
`egm_interpolator.cpp`).  Solves the six-constraint two-point
boundary-value problem for the quintic (spec sections 4.2 and 8): the
unique coefficients with position/velocity/acceleration `alfa`/`d_alfa`/
`dd_alfa` at 0 and `beta`/`d_beta`/`dd_beta` at `duration`. -/
def SplinePolynomial.update (sc : SplineConditions) : SplinePolynomial :=
  { a := sc.alfa
    b := sc.d_alfa
    c := sc.dd_alfa / 2
    d := (20 * (sc.beta - sc.alfa) - (8 * sc.d_beta + 12 * sc.d_alfa) * sc.duration
          - (3 * sc.dd_alfa - sc.dd_beta) * sc.duration ^ 2) / (2 * sc.duration ^ 3)
    e := (30 * (sc.alfa - sc.beta) + (14 * sc.d_beta + 16 * sc.d_alfa) * sc.duration
          + (3 * sc.dd_alfa - 2 * sc.dd_beta) * sc.duration ^ 2) / (2 * sc.duration ^ 4)
    f := (12 * (sc.beta - sc.alfa) - 6 * (sc.d_beta + sc.d_alfa) * sc.duration
          - (sc.dd_alfa - sc.dd_beta) * sc.duration ^ 2) / (2 * sc.duration ^ 5) }

/-- The position polynomial a + b*X + c*X^2 + d*X^3 + e*X^4 + f*X^5 of a
`SplinePolynomial`, as a formal polynomial over the reals. -/
def positionPolynomial (p : SplinePolynomial) : Polynomial ℝ :=
  Polynomial.C p.a + Polynomial.C p.b * Polynomial.X
    + Polynomial.C p.c * Polynomial.X ^ 2 + Polynomial.C p.d * Polynomial.X ^ 3
    + Polynomial.C p.e * Polynomial.X ^ 4 + Polynomial.C p.f * Polynomial.X ^ 5

/-- A quaternion as carried on the wire (`wrapper::Quaternion`, components
u0, u1, u2, u3 with u0 the scalar part). -/
structure Quaternion where
  u0 : ℝ
  u1 : ℝ
  u2 : ℝ
  u3 : ℝ

/-- Dot product of two quaternions. -/
def qdot (p q : Quaternion) : ℝ :=
  p.u0 * q.u0 + p.u1 * q.u1 + p.u2 * q.u2 + p.u3 * q.u3

/-- Componentwise negation of a quaternion. -/
def qneg (q : Quaternion) : Quaternion :=
  ⟨-q.u0, -q.u1, -q.u2, -q.u3⟩

/-- Componentwise sum of two quaternions. -/
def qadd (p q : Quaternion) : Quaternion :=
  ⟨p.u0 + q.u0, p.u1 + q.u1, p.u2 + q.u2, p.u3 + q.u3⟩

/-- Componentwise difference of two quaternions. -/
def qsub (p q : Quaternion) : Quaternion :=
  ⟨p.u0 - q.u0, p.u1 - q.u1, p.u2 - q.u2, p.u3 - q.u3⟩

/-- Scaling of a quaternion by a real number. -/
def qsmul (r : ℝ) (q : Quaternion) : Quaternion :=
  ⟨r * q.u0, r * q.u1, r * q.u2, r * q.u3⟩

/-- Euclidean norm of a quaternion. -/
def qnorm (q : Quaternion) : ℝ :=
  Real.sqrt (qdot q q)

/-- Renormalization of a quaternion to unit length (componentwise division
by the norm). -/
def qnormalize (q : Quaternion) : Quaternion :=
  ⟨q.u0 / qnorm q, q.u1 / qnorm q, q.u2 / qnorm q, q.u3 / qnorm q⟩

/-- The threshold for the dot product used to decide whether linear
interpolation should be used (`Slerp::DOT_PRODUCT_THRESHOLD`, header
line 387). -/
def dotProductThreshold : ℝ := 0.9995

/-- The Slerp component's state (`EGMInterpolator::Slerp`, header lines
415-446): session duration, the coefficient omega, the start and goal
quaternions, and the linear-fallback flag. -/
structure Slerp where
  duration : ℝ
  omega : ℝ
  q0 : Quaternion
  q1 : Quaternion
  use_linear : Bool

/-- The default constructor of `Slerp` (header lines 385-394): zero
duration and omega, linear fallback off, both quaternions set to the
identity (u0 = 1). -/
def Slerp.init : Slerp :=
  { duration := 0
    omega := 0
    q0 := ⟨1, 0, 0, 0⟩
    q1 := ⟨1, 0, 0, 0⟩
    use_linear := false }

/-- Modelled from the spec: `Slerp::update` (body in the absent
`egm_interpolator.cpp`).  Computes the dot product of the start and goal
quaternions; to guarantee the shortest rotational path the goal quaternion
is negated before angle computation when the dot product is negative
(spec section 4.3); when the (corrected) dot product exceeds the threshold
the quaternions are judged too close and the component switches to linear
interpolation, otherwise omega is the arccosine of the corrected dot
product. -/
def Slerp.update (start goal : Quaternion) (c : Conditions) : Slerp :=
  { duration := c.duration
    omega := Real.arccos (if qdot start goal < 0 then -qdot start goal else qdot start goal)
    q0 := start
    q1 := if qdot start goal < 0 then qneg goal else goal
    use_linear :=
      decide (dotProductThreshold <
        (if qdot start goal < 0 then -qdot start goal else qdot start goal)) }

/-- Modelled from the spec: `Slerp::evaluate` (body in the absent
`egm_interpolator.cpp`).  With normalized t in [0, 1]: when the linear
fallback is active, componentwise linear interpolation between the stored
quaternions followed by renormalization; otherwise
[sin((1-t)*omega)/sin(omega)]*q0 + [sin(t*omega)/sin(omega)]*q1
(spec section 4.3 and the header comment, lines 369-377). -/
def Slerp.evaluate (s : Slerp) (t : ℝ) : Quaternion :=
  if s.use_linear then qnormalize (qadd s.q0 (qsmul t (qsub s.q1 s.q0)))
  else
    qadd (qsmul (Real.sin ((1 - t) * s.omega) / Real.sin s.omega) s.q0)
      (qsmul (Real.sin (t * s.omega) / Real.sin s.omega) s.q1)

/-- The ramp factor for ramping down an angular velocity:
0.5*cos(pi*t) + 0.5, going from 1 to 0 (`SoftRamp` header comment,
lines 452-454). -/
def rampDownFactor (t : ℝ) : ℝ :=
  0.5 * Real.cos (Real.pi * t) + 0.5

/-- The ramp factor for ramping in a position or velocity:
0.5*cos(pi*t + pi) + 0.5, going from 0 to 1 (`SoftRamp` header comment,
lines 452-454). -/
def rampInFactor (t : ℝ) : ℝ :=
  0.5 * Real.cos (Real.pi * t + Real.pi) + 0.5

/-- The SoftRamp component's state (`EGMInterpolator::SoftRamp`, header
lines 499-524): session duration, active operation, the captured start
point, the starting angular velocity, and the goal point.  Joint-mode
points are sequences of per-axis states; the angular velocity is kept as
one scalar component. -/
structure SoftRamp where
  duration : ℝ
  operation : Operation
  start : List AxisState
  start_angular_velocity : ℝ
  goal : List AxisState

/-- The default constructor of `SoftRamp` (header line 464): zero duration
and operation `RampDown`, with empty start/goal containers. -/
def SoftRamp.init : SoftRamp :=
  { duration := 0
    operation := Operation.RampDown
    start := []
    start_angular_velocity := 0
    goal := [] }

/-- Modelled from the spec: `SoftRamp::update` (body in the absent
`egm_interpolator.cpp`).  Captures the start point, the goal point, the
starting angular velocity and the session duration and operation
(spec section 4.4). -/
def SoftRamp.update (start goal : List AxisState) (sav : ℝ) (c : Conditions) : SoftRamp :=
  { duration := c.duration
    operation := c.operation
    start := start
    start_angular_velocity := sav
    goal := goal }

/-- Linear blend of two axis states by a factor f:
output = start + f * (goal - start), applied to each field. -/
def blendAxis (f : ℝ) (s g : AxisState) : AxisState :=
  ⟨s.pos + f * (g.pos - s.pos), s.vel + f * (g.vel - s.vel), s.acc + f * (g.acc - s.acc)⟩

/-- Modelled from the spec: the ramp-in part of `SoftRamp::evaluate` (body
in the absent `egm_interpolator.cpp`).  With normalized t in [0, 1],
blends every axis from the captured start state to the stored goal state
with the ramp-in factor: output = start + factor * (goal - start)
(spec section 4.4). -/
def SoftRamp.evaluateRampIn (r : SoftRamp) (t : ℝ) : List AxisState :=
  List.zipWith (blendAxis (rampInFactor t)) r.start r.goal

/-- Modelled from the spec: the ramp-down part of `SoftRamp::evaluate`
(body in the absent `egm_interpolator.cpp`).  With normalized t in [0, 1],
scales the captured start angular velocity by the ramp-down factor
(spec section 4.4). -/
def SoftRamp.rampedAngularVelocity (r : SoftRamp) (t : ℝ) : ℝ :=
  rampDownFactor t * r.start_angular_velocity

/-- The per-axis spline conditions built during `update` for one axis:
the `SplineConditions` constructor followed by `setConditions` on the
start and goal states of that axis. -/
def axisConditions (c : Conditions) (s g : AxisState) : SplineConditions :=
  (SplineConditions.fromConditions c).setConditions s g

/-- The interpolator's session state (`EGMInterpolator`, header lines
526-554), in the joint-space (EGMJoint) control mode: the spline
polynomials of the engaged axes, the soft ramp, and the session
conditions. -/
structure EGMInterpolator where
  spline_polynomials : List SplinePolynomial
  soft_ramp : SoftRamp
  conditions : Conditions

/-- A freshly (default-)constructed interpolator: default-constructed
members, in particular default `Conditions`. -/
def EGMInterpolator.init : EGMInterpolator :=
  { spline_polynomials := []
    soft_ramp := SoftRamp.init
    conditions := Conditions.default }

/-- `EGMInterpolator::getDuration` (header lines 146-149): returns the
stored conditions' duration. -/
def EGMInterpolator.getDuration (ip : EGMInterpolator) : ℝ :=
  ip.conditions.duration

/-- Modelled from the spec: `EGMInterpolator::update` (body in the absent
`egm_interpolator.cpp`), joint-space mode.  Performs all boundary-value
solving up front: one spline polynomial per engaged axis via the per-axis
boundary conditions, updates the soft ramp, and stores the conditions
(spec sections 2 and 4.5). -/
def EGMInterpolator.update (start goal : List AxisState) (c : Conditions) :
    EGMInterpolator :=
  { spline_polynomials :=
      List.zipWith (fun s g => SplinePolynomial.update (axisConditions c s g)) start goal
    soft_ramp := SoftRamp.update start goal 0 c
    conditions := c }

/-- Modelled from the spec: `EGMInterpolator::evaluate` (body in the
absent `egm_interpolator.cpp`), joint-space mode.  The time argument is
clamped to [0, duration] before use by any sub-component; for Normal and
RampDown operation every engaged polynomial is sampled at the clamped
absolute time, while for RampInPosition/RampInVelocity the soft ramp alone
produces the output at the normalized clamped time (spec sections 4.5
and 8). -/
def EGMInterpolator.evaluate (ip : EGMInterpolator) (t : ℝ) : List AxisState :=
  let tc := max 0 (min t ip.conditions.duration)
  match ip.conditions.operation with
  | Operation.Normal | Operation.RampDown =>
      ip.spline_polynomials.map fun p =>
        ⟨p.calculatePosition tc, p.calculateVelocity tc, p.calculateAcceleration tc⟩
  | Operation.RampInPosition | Operation.RampInVelocity =>
      ip.soft_ramp.evaluateRampIn (tc / ip.conditions.duration)

/-- The goal quaternion after the shortest-path sign correction performed
by `Slerp::update`: the input goal, negated when the dot product with the
start is negative. -/
def signCorrectedGoal (q0 q1 : Quaternion) : Quaternion :=
  if qdot q0 q1 < 0 then qneg q1 else q1

/-- The literal reading of the claimed linear fallback: componentwise
linear interpolation between the input start and goal quaternions,
followed by renormalization.  Stated for comparison against the behaviour
of `Slerp::evaluate`. -/
def linearInterpolationOfInputs (q0 q1 : Quaternion) (t : ℝ) : Quaternion :=
  qnormalize (qadd q0 (qsmul t (qsub q1 q0)))

/-- Modelled from the spec: one `evaluate` call as a state transition.
The session state is read-only during evaluation (spec sections 5 and 9:
all state is created by `update()` and `evaluate` performs evaluation
only), so the call returns the output together with the unchanged
session. -/
def EGMInterpolator.evaluateS (ip : EGMInterpolator) (t : ℝ) :
    List AxisState × EGMInterpolator :=
  (ip.evaluate t, ip)

end EGM

namespace RelaxedIK

/-- A 3-vector (nalgebra::Vector3 / ofVec3f). -/
structure Vec3 where
  x : ℝ
  y : ℝ
  z : ℝ

/-- A rotation quaternion (nalgebra::UnitQuaternion), scalar part w. -/
structure Quaternion where
  w : ℝ
  x : ℝ
  y : ℝ
  z : ℝ

/-- The identity quaternion. -/
def qid : Quaternion := ⟨1, 0, 0, 0⟩

/-- Hamilton product of two quaternions. -/
def qmul (p q : Quaternion) : Quaternion :=
  ⟨p.w * q.w - p.x * q.x - p.y * q.y - p.z * q.z,
   p.w * q.x + p.x * q.w + p.y * q.z - p.z * q.y,
   p.w * q.y - p.x * q.z + p.y * q.w + p.z * q.x,
   p.w * q.z + p.x * q.y - p.y * q.x + p.z * q.w⟩

/-- Conjugate of a quaternion. -/
def qconj (q : Quaternion) : Quaternion :=
  ⟨q.w, -q.x, -q.y, -q.z⟩

/-- Rotation of a vector by a quaternion (the action of a
nalgebra::UnitQuaternion on a Vector3): the vector part of
q * (0, v) * conj(q). -/
def qrot (q : Quaternion) (v : Vec3) : Vec3 :=
  ⟨(qmul (qmul q ⟨0, v.x, v.y, v.z⟩) (qconj q)).x,
   (qmul (qmul q ⟨0, v.x, v.y, v.z⟩) (qconj q)).y,
   (qmul (qmul q ⟨0, v.x, v.y, v.z⟩) (qconj q)).z⟩

/-- Vector addition. -/
def vadd (a b : Vec3) : Vec3 :=
  ⟨a.x + b.x, a.y + b.y, a.z + b.z⟩

/-- Arm::get_quat_x (Arm.hpp lines 482-484): rotation by val about the x
axis, UnitQuaternion::from_euler_angles(val, 0, 0). -/
def get_quat_x (val : ℝ) : Quaternion :=
  ⟨Real.cos (val / 2), Real.sin (val / 2), 0, 0⟩

/-- Arm::get_quat_y (Arm.hpp lines 486-488). -/
def get_quat_y (val : ℝ) : Quaternion :=
  ⟨Real.cos (val / 2), 0, Real.sin (val / 2), 0⟩

/-- Arm::get_quat_z (Arm.hpp lines 490-492). -/
def get_quat_z (val : ℝ) : Quaternion :=
  ⟨Real.cos (val / 2), 0, 0, Real.sin (val / 2)⟩

/-- Arm::get_neg_quat_x (Arm.hpp lines 494-496). -/
def get_neg_quat_x (val : ℝ) : Quaternion :=
  get_quat_x (-val)

/-- Arm::get_neg_quat_y (Arm.hpp lines 498-500). -/
def get_neg_quat_y (val : ℝ) : Quaternion :=
  get_quat_y (-val)

/-- Arm::get_neg_quat_z (Arm.hpp lines 502-504). -/
def get_neg_quat_z (val : ℝ) : Quaternion :=
  get_quat_z (-val)

/-- The fields of `Arm` (Arm.hpp lines 515-536) read by the two forward
kinematics passes.  The rotation-matrix mirrors (out_rot_mats) are written
but never read by the compared outputs and are not modelled. -/
structure Arm where
  displacements : List Vec3
  disp_offset : Vec3
  rot_offset_quats : List Quaternion
  do_rot_offset : List Bool
  is_prismatic : List Bool
  is_revolute_or_continuous : List Bool
  is_fixed : List Bool
  is_x : List Bool
  is_y : List Bool
  is_z : List Bool
  is_neg_x : List Bool
  is_neg_y : List Bool
  is_neg_z : List Bool
  out_positions : List Vec3
  out_rot_quats : List Quaternion

/-- Arm::update_prismatic (Arm.hpp lines 328-352): copies the rotation of
link i to link i+1 and writes position i+1 as rotated displacement plus
position i plus the joint translation along the (possibly negated)
axis. -/
def update_prismatic (arm : Arm) (outPos : List Vec3) (outQuat : List Quaternion)
    (i : ℕ) (joint_val : ℝ) (ax ay az anx any_ anz : Bool) :
    List Vec3 × List Quaternion :=
  let qq := outQuat.getD i qid
  let base := vadd (qrot qq (arm.displacements.getD i ⟨0, 0, 0⟩)) (outPos.getD i ⟨0, 0, 0⟩)
  let pos :=
    if ax then vadd base ⟨joint_val, 0, 0⟩
    else if ay then vadd base ⟨0, joint_val, 0⟩
    else if az then vadd base ⟨0, 0, joint_val⟩
    else if anx then vadd base ⟨-joint_val, 0, 0⟩
    else if any_ then vadd base ⟨0, -joint_val, 0⟩
    else if anz then vadd base ⟨0, 0, -joint_val⟩
    else outPos.getD (i + 1) ⟨0, 0, 0⟩
  (outPos.set (i + 1) pos, outQuat.set (i + 1) qq)

/-- Arm::update_prismatic_ro (Arm.hpp lines 354-381): as update_prismatic
but afterwards multiplies the copied rotation by the rotation offset of
link i+1. -/
def update_prismatic_ro (arm : Arm) (outPos : List Vec3) (outQuat : List Quaternion)
    (i : ℕ) (joint_val : ℝ) (ax ay az anx any_ anz : Bool) :
    List Vec3 × List Quaternion :=
  let qq := outQuat.getD i qid
  let base := vadd (qrot qq (arm.displacements.getD i ⟨0, 0, 0⟩)) (outPos.getD i ⟨0, 0, 0⟩)
  let pos :=
    if ax then vadd base ⟨joint_val, 0, 0⟩
    else if ay then vadd base ⟨0, joint_val, 0⟩
    else if az then vadd base ⟨0, 0, joint_val⟩
    else if anx then vadd base ⟨-joint_val, 0, 0⟩
    else if any_ then vadd base ⟨0, -joint_val, 0⟩
    else if anz then vadd base ⟨0, 0, -joint_val⟩
    else outPos.getD (i + 1) ⟨0, 0, 0⟩
  (outPos.set (i + 1) pos,
   outQuat.set (i + 1) (qmul qq (arm.rot_offset_quats.getD (i + 1) qid)))

/-- Arm::update_revolute_or_continuous (Arm.hpp lines 383-412): composes
the rotation of link i with the joint rotation about the flagged axis —
in the __is_neg_z branch the source calls get_neg_quat_x (line 407) — and
writes position i+1 as rotated displacement plus position i. -/
def update_revolute_or_continuous (arm : Arm) (outPos : List Vec3)
    (outQuat : List Quaternion) (i : ℕ) (joint_val : ℝ)
    (ax ay az anx any_ anz : Bool) : List Vec3 × List Quaternion :=
  let qprev := outQuat.getD i qid
  let qnew :=
    if ax then qmul qprev (get_quat_x joint_val)
    else if ay then qmul qprev (get_quat_y joint_val)
    else if az then qmul qprev (get_quat_z joint_val)
    else if anx then qmul qprev (get_neg_quat_x joint_val)
    else if any_ then qmul qprev (get_neg_quat_y joint_val)
    else if anz then qmul qprev (get_neg_quat_x joint_val)
    else outQuat.getD (i + 1) qid
  let pos := vadd (qrot qnew (arm.displacements.getD i ⟨0, 0, 0⟩))
    (outPos.getD i ⟨0, 0, 0⟩)
  (outPos.set (i + 1) pos, outQuat.set (i + 1) qnew)

/-- Arm::update_revolute_or_continuous_ro (Arm.hpp lines 414-444): as the
non-offset variant (including the get_neg_quat_x call in the __is_neg_z
branch, line 438), then multiplies the new rotation by the rotation
offset of link i+1 after the position is written. -/
def update_revolute_or_continuous_ro (arm : Arm) (outPos : List Vec3)
    (outQuat : List Quaternion) (i : ℕ) (joint_val : ℝ)
    (ax ay az anx any_ anz : Bool) : List Vec3 × List Quaternion :=
  let qprev := outQuat.getD i qid
  let qnew :=
    if ax then qmul qprev (get_quat_x joint_val)
    else if ay then qmul qprev (get_quat_y joint_val)
    else if az then qmul qprev (get_quat_z joint_val)
    else if anx then qmul qprev (get_neg_quat_x joint_val)
    else if any_ then qmul qprev (get_neg_quat_y joint_val)
    else if anz then qmul qprev (get_neg_quat_x joint_val)
    else outQuat.getD (i + 1) qid
  let pos := vadd (qrot qnew (arm.displacements.getD i ⟨0, 0, 0⟩))
    (outPos.getD i ⟨0, 0, 0⟩)
  (outPos.set (i + 1) pos,
   outQuat.set (i + 1) (qmul qnew (arm.rot_offset_quats.getD (i + 1) qid)))

/-- Arm::update_fixed (Arm.hpp lines 446-450). -/
def update_fixed (arm : Arm) (outPos : List Vec3) (outQuat : List Quaternion)
    (i : ℕ) : List Vec3 × List Quaternion :=
  let qq := outQuat.getD i qid
  let pos := vadd (qrot qq (arm.displacements.getD i ⟨0, 0, 0⟩))
    (outPos.getD i ⟨0, 0, 0⟩)
  (outPos.set (i + 1) pos, outQuat.set (i + 1) qq)

/-- Arm::update_fixed_ro (Arm.hpp lines 452-456): note the source
multiplies by the rotation offset of link i, not i+1, as written. -/
def update_fixed_ro (arm : Arm) (outPos : List Vec3) (outQuat : List Quaternion)
    (i : ℕ) : List Vec3 × List Quaternion :=
  let qq := outQuat.getD i qid
  let pos := vadd (qrot qq (arm.displacements.getD i ⟨0, 0, 0⟩))
    (outPos.getD i ⟨0, 0, 0⟩)
  (outPos.set (i + 1) pos,
   outQuat.set (i + 1) (qmul qq (arm.rot_offset_quats.getD i qid)))

/-- Arm::update_frames dispatch (Arm.hpp lines 299-326). -/
def update_frames (arm : Arm) (outPos : List Vec3) (outQuat : List Quaternion)
    (i : ℕ) (joint_val : ℝ) (do_ro is_p is_rc is_f ax ay az anx any_ anz : Bool) :
    List Vec3 × List Quaternion :=
  if is_p then
    if do_ro then update_prismatic_ro arm outPos outQuat i joint_val ax ay az anx any_ anz
    else update_prismatic arm outPos outQuat i joint_val ax ay az anx any_ anz
  else if is_rc then
    if do_ro then
      update_revolute_or_continuous_ro arm outPos outQuat i joint_val ax ay az anx any_ anz
    else update_revolute_or_continuous arm outPos outQuat i joint_val ax ay az anx any_ anz
  else if is_f then
    if do_ro then update_fixed_ro arm outPos outQuat i
    else update_fixed arm outPos outQuat i
  else (outPos, outQuat)

/-- The loop body of Arm::get_frames (Arm.hpp lines 118-140), iterating
over link indices while threading the in-place output arrays and the
joint counter. -/
def get_frames_go (arm : Arm) (x : List ℝ) :
    List ℕ → ℕ → List Vec3 → List Quaternion → List Vec3 × List Quaternion
  | [], _, outPos, outQuat => (outPos, outQuat)
  | i :: rest, j, outPos, outQuat =>
    let moving := arm.is_revolute_or_continuous.getD i false || arm.is_prismatic.getD i false
    let st :=
      if moving then
        update_frames arm outPos outQuat i (x.getD j 0)
          (arm.do_rot_offset.getD (i + 1) false)
          (arm.is_prismatic.getD i false) (arm.is_revolute_or_continuous.getD i false)
          (arm.is_fixed.getD i false)
          (arm.is_x.getD j false) (arm.is_y.getD j false) (arm.is_z.getD j false)
          (arm.is_neg_x.getD j false) (arm.is_neg_y.getD j false)
          (arm.is_neg_z.getD j false)
      else if arm.do_rot_offset.getD (i + 1) false then update_fixed_ro arm outPos outQuat i
      else update_fixed arm outPos outQuat i
    get_frames_go arm x rest (if moving then j + 1 else j) st.1 st.2

/-- Arm::get_frames (Arm.hpp lines 118-140) followed by reading the
in-place outputs out_positions and out_rot_quats. -/
def get_frames (arm : Arm) (x : List ℝ) : List Vec3 × List Quaternion :=
  get_frames_go arm x (List.range arm.displacements.length) 0
    arm.out_positions arm.out_rot_quats

/-- One step of Arm::get_frames_immutable (Arm.hpp lines 142-211),
returning the new frame point, rotation and joint counter. -/
def immut_step (arm : Arm) (x : List ℝ) (i j : ℕ) (pt : Vec3) (rq : Quaternion) :
    Vec3 × Quaternion × ℕ :=
  if arm.is_revolute_or_continuous.getD i false then
    let jv := x.getD j 0
    let rq1 :=
      if arm.is_x.getD j false then qmul rq (get_quat_x jv)
      else if arm.is_y.getD j false then qmul rq (get_quat_y jv)
      else if arm.is_z.getD j false then qmul rq (get_quat_z jv)
      else if arm.is_neg_x.getD j false then qmul rq (get_quat_x (-jv))
      else if arm.is_neg_y.getD j false then qmul rq (get_quat_y (-jv))
      else if arm.is_neg_z.getD j false then qmul rq (get_quat_z (-jv))
      else rq
    let pt1 := vadd (qrot rq1 (arm.displacements.getD i ⟨0, 0, 0⟩)) pt
    let rq2 :=
      if arm.do_rot_offset.getD (i + 1) false then
        qmul rq1 (arm.rot_offset_quats.getD (i + 1) qid)
      else rq1
    (pt1, rq2, j + 1)
  else if arm.is_prismatic.getD i false then
    let jv := x.getD j 0
    let base := vadd (qrot rq (arm.displacements.getD i ⟨0, 0, 0⟩)) pt
    let pt1 :=
      if arm.is_x.getD j false then vadd base ⟨jv, 0, 0⟩
      else if arm.is_y.getD j false then vadd base ⟨0, jv, 0⟩
      else if arm.is_z.getD j false then vadd base ⟨0, 0, jv⟩
      else if arm.is_neg_x.getD j false then vadd base ⟨-jv, 0, 0⟩
      else if arm.is_neg_y.getD j false then vadd base ⟨0, -jv, 0⟩
      else if arm.is_neg_z.getD j false then vadd base ⟨0, 0, -jv⟩
      else pt
    let rq2 :=
      if arm.do_rot_offset.getD (i + 1) false then
        qmul rq (arm.rot_offset_quats.getD (i + 1) qid)
      else rq
    (pt1, rq2, j + 1)
  else
    let pt1 := vadd (qrot rq (arm.displacements.getD i ⟨0, 0, 0⟩)) pt
    let rq2 :=
      if arm.do_rot_offset.getD (i + 1) false then
        qmul rq (arm.rot_offset_quats.getD (i + 1) qid)
      else rq
    (pt1, rq2, j)

/-- The recursion of Arm::get_frames_immutable over the link indices,
accumulating the emitted frames. -/
def immut_go (arm : Arm) (x : List ℝ) :
    List ℕ → ℕ → Vec3 → Quaternion → List Vec3 × List Quaternion
  | [], _, _, _ => ([], [])
  | i :: rest, j, pt, rq =>
    let s := immut_step arm x i j pt rq
    let r := immut_go arm x rest s.2.2 s.1 s.2.1
    (s.1 :: r.1, s.2.1 :: r.2)

/-- Arm::get_frames_immutable (Arm.hpp lines 142-211): the pure
forward-kinematics pass returning all link positions and rotation
quaternions, starting from the displacement offset and base rotation
offset. -/
def get_frames_immutable (arm : Arm) (x : List ℝ) : List Vec3 × List Quaternion :=
  let r := immut_go arm x (List.range arm.displacements.length) 0 arm.disp_offset
    (arm.rot_offset_quats.getD 0 qid)
  (arm.disp_offset :: r.1, arm.rot_offset_quats.getD 0 qid :: r.2)

/-- The one-joint arm built by Arm::new from axis type "-z", joint type
"revolute", displacement (1,0,0), zero displacement offset and zero
rotation offsets. -/
def armNegZ : Arm :=
  { displacements := [⟨1, 0, 0⟩]
    disp_offset := ⟨0, 0, 0⟩
    rot_offset_quats := [qid, qid]
    do_rot_offset := [false, false]
    is_prismatic := [false]
    is_revolute_or_continuous := [true]
    is_fixed := [false]
    is_x := [false]
    is_y := [false]
    is_z := [false]
    is_neg_x := [false]
    is_neg_y := [false]
    is_neg_z := [true]
    out_positions := [⟨0, 0, 0⟩, ⟨0, 0, 0⟩]
    out_rot_quats := [qid, qid] }

end RelaxedIK

/-- Claim C7: for every coefficient vector and every t, `calculatePosition`
evaluates the position polynomial, `calculateVelocity` evaluates its formal
first derivative, and `calculateAcceleration` evaluates its formal second
derivative. -/
theorem c7_velocity_acceleration_are_formal_derivatives
    (p : EGM.SplinePolynomial) (t : ℝ) :
    p.calculatePosition t = (EGM.positionPolynomial p).eval t ∧
    p.calculateVelocity t = (Polynomial.derivative (EGM.positionPolynomial p)).eval t ∧
    p.calculateAcceleration t =
      (Polynomial.derivative (Polynomial.derivative (EGM.positionPolynomial p))).eval t := by
  refine ⟨?_, ?_, ?_⟩ <;>
    simp [EGM.positionPolynomial, EGM.SplinePolynomial.calculatePosition,
      EGM.SplinePolynomial.calculateVelocity, EGM.SplinePolynomial.calculateAcceleration,
      Polynomial.derivative_pow, Polynomial.derivative_X_pow] <;>
    ring

/-- Claim C9: a default-constructed `Conditions` has duration 0.0, mode
EGMJoint, operation Normal, ramp_down_factor 0.0 and spline_method
Quintic; consequently, on a freshly constructed interpolator before any
update call, `getDuration` returns 0.0, a value that does not satisfy the
documented duration > 0 session invariant. -/
theorem c9_default_conditions_and_initial_duration :
    EGM.Conditions.default.duration = 0 ∧
    EGM.Conditions.default.mode = EGM.EGMModes.EGMJoint ∧
    EGM.Conditions.default.operation = EGM.Operation.Normal ∧
    EGM.Conditions.default.ramp_down_factor = 0 ∧
    EGM.Conditions.default.spline_method = EGM.SplineMethod.Quintic ∧
    EGM.EGMInterpolator.init.getDuration = 0 ∧
    ¬ 0 < EGM.EGMInterpolator.init.getDuration := by
  refine ⟨rfl, rfl, rfl, rfl, rfl, rfl, ?_⟩
  simp [EGM.EGMInterpolator.init, EGM.EGMInterpolator.getDuration, EGM.Conditions.default]

/-- Claim C8: after `update(start, goal, conditions)`, `getDuration`
returns exactly the duration passed in, and any number of subsequent
`evaluate` calls (modelled as state transitions) leaves that value
unchanged. -/
theorem c8_duration_contract (s g : List EGM.AxisState) (c : EGM.Conditions)
    (ts : List ℝ) :
    (EGM.EGMInterpolator.update s g c).getDuration = c.duration ∧
    (ts.foldl (fun st t => (st.evaluateS t).2)
        (EGM.EGMInterpolator.update s g c)).getDuration = c.duration := by
  refine ⟨rfl, ?_⟩
  simp only [EGM.EGMInterpolator.evaluateS]
  rw [List.foldl_fixed]
  rfl

/-- Claim C2: for every update whose operation is RampDown, the goal
velocity used as the polynomial's terminal boundary condition equals the
start velocity multiplied by ramp_down_factor, and the goal acceleration
used is zero, for every axis. -/
theorem c2_ramp_down_goal_conditions (c : EGM.Conditions) (s g : EGM.AxisState)
    (h : c.operation = EGM.Operation.RampDown) :
    (EGM.axisConditions c s g).d_beta = c.ramp_down_factor * s.vel ∧
    (EGM.axisConditions c s g).dd_beta = 0 := by
  simp [EGM.axisConditions, EGM.SplineConditions.fromConditions,
    EGM.SplineConditions.setConditions, h]

/-- A `zipWith` whose function ignores its second argument and returns the
first is the identity on the first list, when the lengths agree. -/
theorem zipWith_eq_left {α β : Type} {f : α → β → α} (hf : ∀ a b, f a b = a) :
    ∀ (l1 : List α) (l2 : List β), l1.length = l2.length → List.zipWith f l1 l2 = l1
  | [], [], _ => rfl
  | [], _ :: _, h => by simp at h
  | _ :: _, [], h => by simp at h
  | a :: l1, b :: l2, h => by
    simp only [List.zipWith_cons_cons, hf a b]
    rw [zipWith_eq_left hf l1 l2 (by simpa using h)]

/-- A `zipWith` whose function ignores its first argument and returns the
second is the identity on the second list, when the lengths agree. -/
theorem zipWith_eq_right {α β : Type} {f : α → β → β} (hf : ∀ a b, f a b = b) :
    ∀ (l1 : List α) (l2 : List β), l1.length = l2.length → List.zipWith f l1 l2 = l2
  | [], [], _ => rfl
  | [], _ :: _, h => by simp at h
  | _ :: _, [], h => by simp at h
  | a :: l1, b :: l2, h => by
    simp only [List.zipWith_cons_cons, hf a b]
    rw [zipWith_eq_right hf l1 l2 (by simpa using h)]

/-- Blending with factor 0 returns the start state. -/
theorem blendAxis_zero (s g : EGM.AxisState) : EGM.blendAxis 0 s g = s := by
  ext <;> simp [EGM.blendAxis]

/-- Blending with factor 1 returns the goal state. -/
theorem blendAxis_one (s g : EGM.AxisState) : EGM.blendAxis 1 s g = g := by
  ext <;> simp [EGM.blendAxis]

/-- The ramp-down factor starts at 1. -/
theorem rampDownFactor_zero : EGM.rampDownFactor 0 = 1 := by
  simp [EGM.rampDownFactor]
  norm_num

/-- The ramp-down factor ends at 0. -/
theorem rampDownFactor_one : EGM.rampDownFactor 1 = 0 := by
  simp [EGM.rampDownFactor, Real.cos_pi]

/-- The ramp-in factor starts at 0. -/
theorem rampInFactor_zero : EGM.rampInFactor 0 = 0 := by
  simp [EGM.rampInFactor, Real.cos_pi]

/-- The ramp-in factor ends at 1. -/
theorem rampInFactor_one : EGM.rampInFactor 1 = 1 := by
  simp [EGM.rampInFactor, Real.cos_add_pi, Real.cos_pi]
  norm_num

/-- Congruence for `zipWith` under a pointwise-equal function. -/
theorem zipWith_congr_fun {α β γ : Type} {f g : α → β → γ} (h : ∀ a b, f a b = g a b) :
    ∀ (l1 : List α) (l2 : List β), List.zipWith f l1 l2 = List.zipWith g l1 l2
  | [], _ => by simp
  | _ :: _, [] => rfl
  | a :: l1, b :: l2 => by
    simp only [List.zipWith_cons_cons, h a b]
    rw [zipWith_congr_fun h l1 l2]

/-- Boundary behaviour of one solved axis at time 0: the evaluated
position/velocity/acceleration triple of its quintic is the start
state. -/
theorem axis_eval_at_zero (c : EGM.Conditions) (s g : EGM.AxisState) :
    (⟨(EGM.SplinePolynomial.update (EGM.axisConditions c s g)).calculatePosition 0,
      (EGM.SplinePolynomial.update (EGM.axisConditions c s g)).calculateVelocity 0,
      (EGM.SplinePolynomial.update (EGM.axisConditions c s g)).calculateAcceleration 0⟩ :
      EGM.AxisState) = s := by
  ext <;>
    (simp [EGM.axisConditions, EGM.SplineConditions.fromConditions,
      EGM.SplineConditions.setConditions, EGM.SplinePolynomial.update,
      EGM.SplinePolynomial.calculatePosition, EGM.SplinePolynomial.calculateVelocity,
      EGM.SplinePolynomial.calculateAcceleration]
     try ring)

/-- Boundary behaviour of one solved axis at time `duration`: the
evaluated triple of its quintic is the goal position, the (ramp-adjusted)
goal velocity and the (ramp-adjusted) goal acceleration. -/
theorem axis_eval_at_duration (c : EGM.Conditions) (s g : EGM.AxisState)
    (hne : c.duration ≠ 0) :
    (⟨(EGM.SplinePolynomial.update (EGM.axisConditions c s g)).calculatePosition c.duration,
      (EGM.SplinePolynomial.update (EGM.axisConditions c s g)).calculateVelocity c.duration,
      (EGM.SplinePolynomial.update (EGM.axisConditions c s g)).calculateAcceleration
        c.duration⟩ : EGM.AxisState) =
      ⟨g.pos,
       if c.operation = EGM.Operation.RampDown then c.ramp_down_factor * s.vel else g.vel,
       if c.operation = EGM.Operation.RampDown then 0 else g.acc⟩ := by
  by_cases hro : c.operation = EGM.Operation.RampDown <;>
    (ext <;>
      (simp [EGM.axisConditions, EGM.SplineConditions.fromConditions,
        EGM.SplineConditions.setConditions, EGM.SplinePolynomial.update,
        EGM.SplinePolynomial.calculatePosition, EGM.SplinePolynomial.calculateVelocity,
        EGM.SplinePolynomial.calculateAcceleration, hro]
       field_simp
       ring))

/-- Witness for claim C2 at a concrete ramp-down session. -/
theorem c2_ramp_down_goal_conditions_witness :
    (EGM.axisConditions
        ⟨1, EGM.EGMModes.EGMJoint, EGM.Operation.RampDown, 1 / 2, EGM.SplineMethod.Quintic⟩
        ⟨0, 2, 0⟩ ⟨5, 7, 9⟩).d_beta = 1 / 2 * 2 ∧
    (EGM.axisConditions
        ⟨1, EGM.EGMModes.EGMJoint, EGM.Operation.RampDown, 1 / 2, EGM.SplineMethod.Quintic⟩
        ⟨0, 2, 0⟩ ⟨5, 7, 9⟩).dd_beta = 0 :=
  c2_ramp_down_goal_conditions _ _ _ rfl

/-- Claim C5: the SoftRamp blend factors are fd(t) = 0.5*cos(pi*t) + 0.5
for ramp-down and fi(t) = 0.5*cos(pi*t + pi) + 0.5 for ramp-in, with
fd(0) = 1, fd(1) = 0, fi(0) = 0 and fi(1) = 1; consequently the ramp-in
evaluation equals the captured start state at t = 0 and the goal state at
t = 1, and the ramped-down angular velocity equals the full start angular
velocity at t = 0 and zero at t = 1. -/
theorem c5_soft_ramp_factors_and_endpoints (r : EGM.SoftRamp)
    (h : r.start.length = r.goal.length) :
    (∀ t, EGM.rampDownFactor t = 0.5 * Real.cos (Real.pi * t) + 0.5) ∧
    (∀ t, EGM.rampInFactor t = 0.5 * Real.cos (Real.pi * t + Real.pi) + 0.5) ∧
    EGM.rampDownFactor 0 = 1 ∧ EGM.rampDownFactor 1 = 0 ∧
    EGM.rampInFactor 0 = 0 ∧ EGM.rampInFactor 1 = 1 ∧
    r.evaluateRampIn 0 = r.start ∧ r.evaluateRampIn 1 = r.goal ∧
    r.rampedAngularVelocity 0 = r.start_angular_velocity ∧
    r.rampedAngularVelocity 1 = 0 := by
  refine ⟨fun t => rfl, fun t => rfl, rampDownFactor_zero, rampDownFactor_one,
    rampInFactor_zero, rampInFactor_one, ?_, ?_, ?_, ?_⟩
  · simp only [EGM.SoftRamp.evaluateRampIn, rampInFactor_zero]
    exact zipWith_eq_left blendAxis_zero r.start r.goal h
  · simp only [EGM.SoftRamp.evaluateRampIn, rampInFactor_one]
    exact zipWith_eq_right blendAxis_one r.start r.goal h
  · simp [EGM.SoftRamp.rampedAngularVelocity, rampDownFactor_zero]
  · simp [EGM.SoftRamp.rampedAngularVelocity, rampDownFactor_one]

/-- Witness for claim C5 at a concrete one-axis ramp state. -/
theorem c5_soft_ramp_factors_and_endpoints_witness :
    (∀ t, EGM.rampDownFactor t = 0.5 * Real.cos (Real.pi * t) + 0.5) ∧
    (∀ t, EGM.rampInFactor t = 0.5 * Real.cos (Real.pi * t + Real.pi) + 0.5) ∧
    EGM.rampDownFactor 0 = 1 ∧ EGM.rampDownFactor 1 = 0 ∧
    EGM.rampInFactor 0 = 0 ∧ EGM.rampInFactor 1 = 1 ∧
    EGM.SoftRamp.evaluateRampIn
      ⟨1, EGM.Operation.RampInPosition, [⟨0, 0, 0⟩], 4, [⟨1, 2, 3⟩]⟩ 0 = [⟨0, 0, 0⟩] ∧
    EGM.SoftRamp.evaluateRampIn
      ⟨1, EGM.Operation.RampInPosition, [⟨0, 0, 0⟩], 4, [⟨1, 2, 3⟩]⟩ 1 = [⟨1, 2, 3⟩] ∧
    EGM.SoftRamp.rampedAngularVelocity
      ⟨1, EGM.Operation.RampInPosition, [⟨0, 0, 0⟩], 4, [⟨1, 2, 3⟩]⟩ 0 = 4 ∧
    EGM.SoftRamp.rampedAngularVelocity
      ⟨1, EGM.Operation.RampInPosition, [⟨0, 0, 0⟩], 4, [⟨1, 2, 3⟩]⟩ 1 = 0 :=
  c5_soft_ramp_factors_and_endpoints _ rfl

/-- Claim C6: for sessions with nonnegative duration, `evaluate` at t < 0
produces exactly the output of `evaluate` at t = 0, and `evaluate` at
t > duration produces exactly the output of `evaluate` at t = duration;
the time argument is clamped before any sub-component consumes it. -/
theorem c6_time_clamping (ip : EGM.EGMInterpolator) (t : ℝ)
    (hd : 0 ≤ ip.conditions.duration) :
    (t < 0 → ip.evaluate t = ip.evaluate 0) ∧
    (ip.conditions.duration < t →
      ip.evaluate t = ip.evaluate ip.conditions.duration) := by
  have h0 : max 0 (min (0 : ℝ) ip.conditions.duration) = 0 := by
    rw [min_eq_left hd, max_self]
  constructor
  · intro ht
    have hc : max 0 (min t ip.conditions.duration) = 0 :=
      max_eq_left (le_trans (min_le_left _ _) ht.le)
    simp only [EGM.EGMInterpolator.evaluate, hc, h0]
  · intro ht
    have hc : max 0 (min t ip.conditions.duration) = ip.conditions.duration := by
      rw [min_eq_right ht.le]
      exact max_eq_right hd
    have hdd : max 0 (min ip.conditions.duration ip.conditions.duration)
        = ip.conditions.duration := by
      rw [min_self]
      exact max_eq_right hd
    simp only [EGM.EGMInterpolator.evaluate, hc, hdd]

/-- Witness for claim C6 on the freshly constructed interpolator. -/
theorem c6_time_clamping_witness :
    EGM.EGMInterpolator.init.evaluate (-1) = EGM.EGMInterpolator.init.evaluate 0 ∧
    EGM.EGMInterpolator.init.evaluate 1 =
      EGM.EGMInterpolator.init.evaluate EGM.EGMInterpolator.init.conditions.duration :=
  ⟨(c6_time_clamping EGM.EGMInterpolator.init (-1) (le_refl 0)).1 (neg_lt_zero.mpr one_pos),
   (c6_time_clamping EGM.EGMInterpolator.init 1 (le_refl 0)).2 one_pos⟩

/-- Claim C1: for every valid joint-mode session (duration > 0, matching
start/goal axis counts), after one `update(start, goal, conditions)` call
`evaluate` at t = 0 writes the start position, velocity and acceleration
of every engaged axis into the output, and `evaluate` at t = duration
writes the goal values, with the goal velocity and acceleration
ramp-adjusted when the operation is RampDown. -/
theorem c1_boundary_satisfaction (start goal : List EGM.AxisState) (c : EGM.Conditions)
    (hd : 0 < c.duration) (hl : start.length = goal.length) :
    (EGM.EGMInterpolator.update start goal c).evaluate 0 = start ∧
    (EGM.EGMInterpolator.update start goal c).evaluate c.duration =
      List.zipWith
        (fun s g => EGM.AxisState.mk g.pos
          (if c.operation = EGM.Operation.RampDown then c.ramp_down_factor * s.vel
            else g.vel)
          (if c.operation = EGM.Operation.RampDown then 0 else g.acc))
        start goal := by
  have hne : c.duration ≠ 0 := hd.ne'
  have tc0 : max 0 (min (0 : ℝ) c.duration) = 0 := by rw [min_eq_left hd.le, max_self]
  have tcd : max 0 (min c.duration c.duration) = c.duration := by
    rw [min_self]
    exact max_eq_right hd.le
  refine ⟨?_, ?_⟩
  · simp only [EGM.EGMInterpolator.evaluate, EGM.EGMInterpolator.update, tc0]
    cases hop : c.operation with
    | Normal =>
        simp only [List.map_zipWith]
        exact zipWith_eq_left (fun s g => axis_eval_at_zero c s g) start goal hl
    | RampDown =>
        simp only [List.map_zipWith]
        exact zipWith_eq_left (fun s g => axis_eval_at_zero c s g) start goal hl
    | RampInPosition =>
        simp only [EGM.SoftRamp.update, EGM.SoftRamp.evaluateRampIn, zero_div,
          rampInFactor_zero]
        exact zipWith_eq_left blendAxis_zero start goal hl
    | RampInVelocity =>
        simp only [EGM.SoftRamp.update, EGM.SoftRamp.evaluateRampIn, zero_div,
          rampInFactor_zero]
        exact zipWith_eq_left blendAxis_zero start goal hl
  · simp only [EGM.EGMInterpolator.evaluate, EGM.EGMInterpolator.update, tcd]
    cases hop : c.operation with
    | Normal =>
        simp only [List.map_zipWith]
        have key : ∀ s g : EGM.AxisState,
            (⟨(EGM.SplinePolynomial.update
                  (EGM.axisConditions c s g)).calculatePosition c.duration,
              (EGM.SplinePolynomial.update
                  (EGM.axisConditions c s g)).calculateVelocity c.duration,
              (EGM.SplinePolynomial.update
                  (EGM.axisConditions c s g)).calculateAcceleration c.duration⟩ :
              EGM.AxisState) = EGM.AxisState.mk g.pos g.vel g.acc := by
          intro s g
          have h := axis_eval_at_duration c s g hne
          rw [hop] at h
          simpa using h
        rw [zipWith_congr_fun key start goal]
        simp
    | RampDown =>
        simp only [List.map_zipWith]
        have key : ∀ s g : EGM.AxisState,
            (⟨(EGM.SplinePolynomial.update
                  (EGM.axisConditions c s g)).calculatePosition c.duration,
              (EGM.SplinePolynomial.update
                  (EGM.axisConditions c s g)).calculateVelocity c.duration,
              (EGM.SplinePolynomial.update
                  (EGM.axisConditions c s g)).calculateAcceleration c.duration⟩ :
              EGM.AxisState) = EGM.AxisState.mk g.pos (c.ramp_down_factor * s.vel) 0 := by
          intro s g
          have h := axis_eval_at_duration c s g hne
          rw [hop] at h
          simpa using h
        rw [zipWith_congr_fun key start goal]
        simp
    | RampInPosition =>
        simp only [EGM.SoftRamp.update, EGM.SoftRamp.evaluateRampIn, div_self hne,
          rampInFactor_one]
        rw [zipWith_eq_right blendAxis_one start goal hl]
        exact (zipWith_eq_right (fun s g => by simp) start goal hl).symm
    | RampInVelocity =>
        simp only [EGM.SoftRamp.update, EGM.SoftRamp.evaluateRampIn, div_self hne,
          rampInFactor_one]
        rw [zipWith_eq_right blendAxis_one start goal hl]
        exact (zipWith_eq_right (fun s g => by simp) start goal hl).symm

/-- Witness for claim C1 on the concrete session start (0,0,0), goal
(1,0,0), duration 1, Normal operation. -/
theorem c1_boundary_satisfaction_witness :
    (EGM.EGMInterpolator.update [⟨0, 0, 0⟩] [⟨1, 0, 0⟩]
        ⟨1, EGM.EGMModes.EGMJoint, EGM.Operation.Normal, 0,
          EGM.SplineMethod.Quintic⟩).evaluate 0 = [⟨0, 0, 0⟩] ∧
    (EGM.EGMInterpolator.update [⟨0, 0, 0⟩] [⟨1, 0, 0⟩]
        ⟨1, EGM.EGMModes.EGMJoint, EGM.Operation.Normal, 0,
          EGM.SplineMethod.Quintic⟩).evaluate 1 = [⟨1, 0, 0⟩] :=
  ⟨(c1_boundary_satisfaction [⟨0, 0, 0⟩] [⟨1, 0, 0⟩] _ one_pos rfl).1,
   (c1_boundary_satisfaction [⟨0, 0, 0⟩] [⟨1, 0, 0⟩] _ one_pos rfl).2⟩

/-- Counterexample for claim C3 as stated: with q0 = (1,0,0,0) and
q1 = (-1,0,0,0) the dot product is -1, so its absolute value exceeds the
threshold and the linear fallback is active; but evaluation at t = 1/2
yields (1,0,0,0) — linear interpolation toward the sign-corrected goal —
whereas componentwise linear interpolation between the inputs q0 and q1
followed by renormalization yields (0,0,0,0). -/
theorem c3_linear_branch_counterexample :
    EGM.dotProductThreshold < |EGM.qdot ⟨1, 0, 0, 0⟩ ⟨-1, 0, 0, 0⟩| ∧
    (EGM.Slerp.update ⟨1, 0, 0, 0⟩ ⟨-1, 0, 0, 0⟩ EGM.Conditions.default).evaluate (1 / 2) ≠
      EGM.linearInterpolationOfInputs ⟨1, 0, 0, 0⟩ ⟨-1, 0, 0, 0⟩ (1 / 2) := by
  constructor
  · norm_num [EGM.qdot, EGM.dotProductThreshold]
  · norm_num [EGM.Slerp.update, EGM.Slerp.evaluate, EGM.linearInterpolationOfInputs,
      EGM.qdot, EGM.qneg, EGM.qadd, EGM.qsub, EGM.qsmul, EGM.qnormalize, EGM.qnorm,
      EGM.dotProductThreshold, Real.sqrt_one, Real.sqrt_zero]

/-- Claim C3 (amended): `Slerp::evaluate` after `update` computes, when
|dot(q0,q1)| exceeds the threshold 0.9995, componentwise linear
interpolation between q0 and the sign-corrected goal followed by
renormalization, and otherwise
[sin((1-t)*omega)/sin(omega)]*q0 + [sin(t*omega)/sin(omega)]*q1c with
cos(omega) = |dot(q0,q1)| and q1c the sign-corrected goal. -/
theorem c3_slerp_branches (q0 q1 : EGM.Quaternion) (c : EGM.Conditions) (t : ℝ) :
    (EGM.Slerp.update q0 q1 c).evaluate t =
      if EGM.dotProductThreshold < |EGM.qdot q0 q1| then
        EGM.qnormalize
          (EGM.qadd q0 (EGM.qsmul t (EGM.qsub (EGM.signCorrectedGoal q0 q1) q0)))
      else
        EGM.qadd
          (EGM.qsmul (Real.sin ((1 - t) * Real.arccos |EGM.qdot q0 q1|) /
              Real.sin (Real.arccos |EGM.qdot q0 q1|)) q0)
          (EGM.qsmul (Real.sin (t * Real.arccos |EGM.qdot q0 q1|) /
              Real.sin (Real.arccos |EGM.qdot q0 q1|)) (EGM.signCorrectedGoal q0 q1)) := by
  rcases lt_or_le (EGM.qdot q0 q1) 0 with hneg | hpos
  · simp [EGM.Slerp.update, EGM.Slerp.evaluate, EGM.signCorrectedGoal, hneg,
      abs_of_neg hneg, decide_eq_true_eq]
  · have h' : ¬ EGM.qdot q0 q1 < 0 := not_lt.mpr hpos
    simp [EGM.Slerp.update, EGM.Slerp.evaluate, EGM.signCorrectedGoal, h',
      abs_of_nonneg hpos, decide_eq_true_eq]

/-- Claim C4: when dot(q0,q1) < 0 the stored goal quaternion is the
negated input goal, omega is the arccosine of the corrected (nonnegative)
dot product, and therefore omega is at most pi/2 — so the rotation angle
2*omega traversed between the endpoints is at most pi, the shortest
path. -/
theorem c4_shortest_path_sign_correction (q0 q1 : EGM.Quaternion) (c : EGM.Conditions)
    (h : EGM.qdot q0 q1 < 0) :
    (EGM.Slerp.update q0 q1 c).q1 = EGM.qneg q1 ∧
    (EGM.Slerp.update q0 q1 c).omega = Real.arccos (-EGM.qdot q0 q1) ∧
    2 * (EGM.Slerp.update q0 q1 c).omega ≤ Real.pi := by
  have homega : (EGM.Slerp.update q0 q1 c).omega = Real.arccos (-EGM.qdot q0 q1) := by
    simp [EGM.Slerp.update, h]
  refine ⟨by simp [EGM.Slerp.update, h], homega, ?_⟩
  rw [homega]
  have h2 : Real.arccos (-EGM.qdot q0 q1) ≤ Real.pi / 2 :=
    Real.arccos_le_pi_div_two.mpr (by linarith)
  linarith

/-- Witness for claim C4 at the antipodal pair (1,0,0,0), (-1,0,0,0). -/
theorem c4_shortest_path_sign_correction_witness :
    (EGM.Slerp.update ⟨1, 0, 0, 0⟩ ⟨-1, 0, 0, 0⟩ EGM.Conditions.default).q1 =
      EGM.qneg ⟨-1, 0, 0, 0⟩ ∧
    (EGM.Slerp.update ⟨1, 0, 0, 0⟩ ⟨-1, 0, 0, 0⟩ EGM.Conditions.default).omega =
      Real.arccos (-EGM.qdot ⟨1, 0, 0, 0⟩ ⟨-1, 0, 0, 0⟩) ∧
    2 * (EGM.Slerp.update ⟨1, 0, 0, 0⟩ ⟨-1, 0, 0, 0⟩ EGM.Conditions.default).omega ≤
      Real.pi :=
  c4_shortest_path_sign_correction _ _ _ (by simp [EGM.qdot])

/-- Claim C10 (divergence of the two forward-kinematics passes): on the
one-joint arm with a revolute "-z" axis and displacement (1,0,0),
evaluated at joint value pi, the in-place pass `get_frames` produces link
position (1,0,0) with a rotation about the x axis — its __is_neg_z branch
calls get_neg_quat_x (Arm.hpp line 407), against the commented-out
z-rotation directly above it — while `get_frames_immutable` rotates about
the z axis and produces link position (-1,0,0); the two outputs
differ. -/
theorem c10_get_frames_neg_z_divergence :
    RelaxedIK.get_frames RelaxedIK.armNegZ [Real.pi] =
      ([⟨0, 0, 0⟩, ⟨1, 0, 0⟩], [RelaxedIK.qid, ⟨0, -1, 0, 0⟩]) ∧
    RelaxedIK.get_frames_immutable RelaxedIK.armNegZ [Real.pi] =
      ([⟨0, 0, 0⟩, ⟨-1, 0, 0⟩], [RelaxedIK.qid, ⟨0, 0, 0, -1⟩]) ∧
    RelaxedIK.get_frames RelaxedIK.armNegZ [Real.pi] ≠
      RelaxedIK.get_frames_immutable RelaxedIK.armNegZ [Real.pi] := by
  have hmut : RelaxedIK.get_frames RelaxedIK.armNegZ [Real.pi] =
      ([⟨0, 0, 0⟩, ⟨1, 0, 0⟩], [RelaxedIK.qid, ⟨0, -1, 0, 0⟩]) := by
    simp [RelaxedIK.get_frames, RelaxedIK.get_frames_go, RelaxedIK.armNegZ,
      RelaxedIK.update_frames, RelaxedIK.update_revolute_or_continuous,
      RelaxedIK.get_neg_quat_x, RelaxedIK.get_quat_x, RelaxedIK.qmul, RelaxedIK.qconj,
      RelaxedIK.qrot, RelaxedIK.vadd, RelaxedIK.qid, List.range_succ, neg_div,
      Real.cos_pi_div_two, Real.sin_pi_div_two]
  have himm : RelaxedIK.get_frames_immutable RelaxedIK.armNegZ [Real.pi] =
      ([⟨0, 0, 0⟩, ⟨-1, 0, 0⟩], [RelaxedIK.qid, ⟨0, 0, 0, -1⟩]) := by
    simp [RelaxedIK.get_frames_immutable, RelaxedIK.immut_go, RelaxedIK.immut_step,
      RelaxedIK.armNegZ, RelaxedIK.get_quat_z, RelaxedIK.qmul, RelaxedIK.qconj,
      RelaxedIK.qrot, RelaxedIK.vadd, RelaxedIK.qid, List.range_succ, neg_div,
      Real.cos_pi_div_two, Real.sin_pi_div_two]
  refine ⟨hmut, himm, ?_⟩
  rw [hmut, himm]
  simp [RelaxedIK.qid]
